import Mathlib

/-!
Shallow embedding of the reconciliation core of the
`terraform-provider-opennebula` repository (package `opennebula`), together
with proofs settling the frozen claims about its specification.

Conventions of the embedding:
* A remote XML-RPC call (`client.Call(...)` in the Go source) is recorded as
  an `RCall`: the method name plus its positional arguments rendered as
  strings.  Driver paths are modelled as pure functions from their inputs
  (the stored resource data `d`, plus an explicit description of the remote
  server's responses) to the list of calls they issue and an optional error.
* Go `string` values that the algorithms inspect character by character are
  modelled as `List Char`; Go's `len` on a string is the UTF-8 byte count,
  modelled by `goLen`.
* Go byte arithmetic (`ip[3]++` on a `net.IP`) wraps modulo 256 and is
  modelled with explicit `% 256`.
* Machine integers carried opaquely (resource IDs, sizes) are `Nat`.
-/

namespace OpenNebula

/-- A remote call issued through the shared client: method name and
positional arguments, each rendered to a string. -/
structure RCall where
  method : String
  args : List String
deriving DecidableEq, Repr

/-- Number of bytes of the UTF-8 encoding of a character. -/
def utf8Bytes (c : Char) : Nat :=
  if c.toNat < 0x80 then 1
  else if c.toNat < 0x800 then 2
  else if c.toNat < 0x10000 then 3
  else 4

/-- Go's `len` on a string: the UTF-8 byte count of its characters. -/
def goLen (s : List Char) : Nat := (s.map utf8Bytes).sum

/-- Character test from the validator loop body: `c < "0" || c > "7"`.
Go compares one-rune strings lexicographically on their UTF-8 bytes, which
coincides with code-point order. -/
def permCharBad (c : Char) : Bool := c < '0' ∨ '7' < c

/-- The `ValidateFunc` for the `permissions` schema field, identical in the
Image, VirtualMachine, VirtualNetwork and SecurityGroup drivers: it appends
one error when `len(value) != 3` and one error when some character of the
string is outside `'0'..'7'` (the loop clears the `all` flag on any bad
character).  The returned list is the accumulated `errors` slice. -/
def permValidateErrors (value : List Char) : List String :=
  (if goLen value ≠ 3 then
    ["has specify 3 permission sets: owner-group-other"] else []) ++
  (if value.foldl (fun all c => if permCharBad c then false else all) true = false then
    ["Each character should specify a Unix-like permission set with a number from 0 to 7"]
   else [])

/-- The validator accepts (no errors) exactly when it produces an empty
error list. -/
def permValidateOk (value : List Char) : Bool := permValidateErrors value = ([] : List String)

lemma permValidate_foldl (s : List Char) (b : Bool) :
    s.foldl (fun all c => if permCharBad c then false else all) b
      = (b && s.all (fun c => !permCharBad c)) := by
  induction s generalizing b with
  | nil => simp
  | cons c t ih =>
      simp only [List.foldl_cons, List.all_cons, ih]
      by_cases h : permCharBad c <;> simp [h, Bool.and_assoc]

lemma utf8Bytes_of_le_seven {c : Char} (h : c ≤ '7') : utf8Bytes c = 1 := by
  have hv : c.toNat ≤ 55 := by
    have := h
    simp only [Char.le_def] at this
    exact this
  unfold utf8Bytes
  have : c.toNat < 0x80 := by omega
  simp [this]

lemma permCharBad_iff (c : Char) : permCharBad c = false ↔ ('0' ≤ c ∧ c ≤ '7') := by
  simp [permCharBad, not_or, not_lt]

lemma goLen_of_ascii {s : List Char} (h : ∀ c ∈ s, c ≤ '7') : goLen s = s.length := by
  induction s with
  | nil => rfl
  | cons c t ih =>
      have hc : utf8Bytes c = 1 := utf8Bytes_of_le_seven (h c (List.mem_cons_self c t))
      have ht := ih (fun x hx => h x (List.mem_cons_of_mem c hx))
      simp only [goLen, List.map_cons, List.sum_cons, hc, List.length_cons] at ht ⊢
      omega

/-- Claim C8: the permission `ValidateFunc` (shared verbatim by the Image,
VirtualMachine, VirtualNetwork and SecurityGroup schemas) rejects exactly
those strings whose length is not 3 or that contain a character outside
`'0'..'7'`; every 3-character string over `'0'..'7'` is accepted.  The
validator is a pure function of the candidate string, invoked by the schema
layer before the driver issues any remote call. -/
theorem C8_permission_validation (s : List Char) :
    permValidateOk s = true ↔ (s.length = 3 ∧ ∀ c ∈ s, '0' ≤ c ∧ c ≤ '7') := by
  simp only [permValidateOk, permValidateErrors, permValidate_foldl, Bool.true_and,
    decide_eq_true_eq, List.append_eq_nil]
  constructor
  · rintro ⟨h1, h2⟩
    have hlen : goLen s = 3 := by
      by_contra hne
      simp [hne] at h1
    have hall : s.all (fun c => !permCharBad c) = true := by
      by_contra hb
      rw [Bool.not_eq_true] at hb
      simp [hb] at h2
    have hin : ∀ c ∈ s, '0' ≤ c ∧ c ≤ '7' := by
      intro c hc
      have hx := List.all_eq_true.mp hall c hc
      rw [Bool.not_eq_true'] at hx
      exact (permCharBad_iff c).mp hx
    exact ⟨by rw [← goLen_of_ascii (fun c hc => (hin c hc).2), hlen], hin⟩
  · rintro ⟨hlen, hin⟩
    have hall : s.all (fun c => !permCharBad c) = true := by
      rw [List.all_eq_true]
      intro c hc
      rw [Bool.not_eq_true']
      exact (permCharBad_iff c).mpr (hin c hc)
    have hg : goLen s = 3 := by rw [goLen_of_ascii (fun c hc => (hin c hc).2), hlen]
    simp [hg, hall]

/-- Per-subject use/manage/admin permission flags, the wire structure sent to
the `*.chmod` calls (the `Permissions` XML record of the shared helpers). -/
structure Permissions where
  owner_u : Nat
  owner_m : Nat
  owner_a : Nat
  group_u : Nat
  group_m : Nat
  group_a : Nat
  other_u : Nat
  other_m : Nat
  other_a : Nat
deriving DecidableEq, Repr

/-- Use flag of an octal digit: its most significant bit. -/
def digitU (d : Nat) : Nat := d / 4

/-- Manage flag of an octal digit: its middle bit. -/
def digitM (d : Nat) : Nat := d / 2 % 2

/-- Admin flag of an octal digit: its least significant bit. -/
def digitA (d : Nat) : Nat := d % 2

/-- Numeric value of an octal digit character. -/
def charDigit (c : Char) : Nat := c.toNat - 48

/-- Modelled from the spec: the encoder `permission(permStr)` lives in the
repository's shared helper file, which is not among the provided sources
(only its call sites are).  Per §4.1 each digit's 3 bits map to the
{use, manage, admin} flags of the corresponding subject (owner/group/other)
from most- to least-significant bit.  Input is assumed already validated
(`permValidateOk`). -/
def permission (s : List Char) : Permissions :=
  match s with
  | [o, g, t] =>
      ⟨digitU (charDigit o), digitM (charDigit o), digitA (charDigit o),
       digitU (charDigit g), digitM (charDigit g), digitA (charDigit g),
       digitU (charDigit t), digitM (charDigit t), digitA (charDigit t)⟩
  | _ => ⟨0, 0, 0, 0, 0, 0, 0, 0, 0⟩

/-- Octal digit recombined from its three flags. -/
def subjectDigit (u m a : Nat) : Nat := 4 * u + 2 * m + a

/-- Character of an octal digit. -/
def digitChar (d : Nat) : Char := Char.ofNat (48 + d)

/-- Modelled from the spec: the decoder `permissionString(PermissionBits)`
of the shared helper file (not among the provided sources); per §4.1 it is
the inverse projection, always producing a 3-digit string with the
owner/group/other digits recombined from the use/manage/admin flags. -/
def permissionString (p : Permissions) : List Char :=
  [digitChar (subjectDigit p.owner_u p.owner_m p.owner_a),
   digitChar (subjectDigit p.group_u p.group_m p.group_a),
   digitChar (subjectDigit p.other_u p.other_m p.other_a)]

lemma subjectDigit_bits (d : Nat) :
    subjectDigit (digitU d) (digitM d) (digitA d) = d := by
  simp only [subjectDigit, digitU, digitM, digitA]
  omega

lemma digitChar_charDigit {c : Char} (h1 : '0' ≤ c) :
    digitChar (charDigit c) = c := by
  have hlo : 48 ≤ c.toNat := by
    simpa [Char.le_def] using h1
  have : 48 + (c.toNat - 48) = c.toNat := by omega
  rw [digitChar, charDigit, this]
  exact Char.ofNat_toNat c

/-- Claim C9: for every valid 3-digit octal permission string, decoding the
permission-bit structure obtained by encoding it yields the string again:
`permissionString (permission s) = s`. -/
theorem C9_permission_round_trip (s : List Char)
    (hlen : s.length = 3) (hin : ∀ c ∈ s, '0' ≤ c ∧ c ≤ '7') :
    permissionString (permission s) = s := by
  match s, hlen with
  | [o, g, t], _ =>
    have ho := hin o (by simp)
    have hg := hin g (by simp)
    have ht := hin t (by simp)
    simp only [permission, permissionString, subjectDigit_bits,
      digitChar_charDigit ho.1, digitChar_charDigit hg.1,
      digitChar_charDigit ht.1]

/-- Witness for C9 at the concrete valid string "740". -/
theorem C9_permission_round_trip_witness :
    permissionString (permission ['7', '4', '0']) = ['7', '4', '0'] :=
  C9_permission_round_trip ['7', '4', '0'] (by decide) (by decide)

/-- An entry of the visible image pool: the two fields the name scan
inspects (`NAME` and `ID` of the unmarshalled `IMAGE` element). -/
structure PoolImage where
  name : String
  id : Nat
deriving DecidableEq, Repr

/-- From `getImageIdByName` (resource_image.go): after fetching the visible
pool (`one.imagepool.info -3 -1 -1`), scan it linearly and return the first
entry whose name equals the requested name (the loop breaks on the first
match); when no entry matches, fail with the `ImageNotFound` error. -/
def getImageIdByName (pool : List PoolImage) (nm : String) : Except String Nat :=
  match pool.find? (fun t => t.name = nm) with
  | some t => Except.ok t.id
  | none => Except.error "ImageNotFound"

/-- Go's `strconv.Atoi`: an optional sign followed by at least one decimal
digit (machine-size overflow, irrelevant at the sizes involved here, is not
modelled). -/
def goAtoi (s : List Char) : Option Int :=
  let body : List Char → Int → Option Int := fun ds sign =>
    if ds = [] then none
    else if ds.all (fun c => '0' ≤ c ∧ c ≤ '9') then
      some (sign * ((ds.foldl (fun n c => 10 * n + (c.toNat - 48)) 0 : Nat) : Int))
    else none
  match s with
  | '-' :: rest => body rest (-1)
  | '+' :: rest => body rest 1
  | _ => body s 1

/-- The clone-source resolution step of `resourceImageClone`
(resource_image.go): a `clone_from_image` reference that parses as an
integer is used as the ID directly (`strconv.Atoi`); otherwise the name is
resolved through `getImageIdByName`, and a resolution failure is returned
as a hard error to the caller. -/
def resolveCloneSource (cloneFrom : String) (pool : List PoolImage) : Except String Int :=
  match goAtoi cloneFrom.toList with
  | some v => Except.ok v
  | none =>
      match getImageIdByName pool cloneFrom with
      | Except.ok i => Except.ok (Int.ofNat i)
      | Except.error _ =>
          Except.error ("Unable to find Image by ID or name " ++ cloneFrom)

lemma find?_first {α : Type} (p : α → Bool) (l : List α) (i : Fin l.length)
    (hpre : ∀ e ∈ l.take i, p e = false) (hi : p (l.get i) = true) :
    l.find? p = some (l.get i) := by
  induction l with
  | nil => exact absurd i.isLt (by simp)
  | cons a t ih =>
    cases i using Fin.cases with
    | zero =>
        have ha : p a = true := hi
        simp [List.find?_cons, ha]
    | succ j =>
      have ha : p a = false := hpre a (by simp [List.take_succ_cons])
      rw [List.find?_cons_of_neg _ (by simp [ha])]
      exact ih j (fun e he => hpre e (by simp [List.take_succ_cons, he])) hi

/-- Claim C7: name-based identity resolution returns the numeric ID of the
first pool entry whose name is exactly the requested one (duplicates are not
an error), fails with `ImageNotFound` when no entry matches, and that
failure is hard for the clone-from-source path. -/
theorem C7_name_resolution (pool : List PoolImage) (nm : String) :
    (∀ i : Fin pool.length, (∀ e ∈ pool.take i, e.name ≠ nm) →
        (pool.get i).name = nm →
        getImageIdByName pool nm = Except.ok (pool.get i).id)
    ∧ ((∀ e ∈ pool, e.name ≠ nm) →
        getImageIdByName pool nm = Except.error "ImageNotFound")
    ∧ (goAtoi nm.toList = none → (∀ e ∈ pool, e.name ≠ nm) →
        resolveCloneSource nm pool =
          Except.error ("Unable to find Image by ID or name " ++ nm)) := by
  have hnone : (∀ e ∈ pool, e.name ≠ nm) →
      pool.find? (fun t => t.name = nm) = none := by
    intro h
    rw [List.find?_eq_none]
    intro x hx
    simp [h x hx]
  refine ⟨?_, ?_, ?_⟩
  · intro i hpre hi
    have := find?_first (fun t => t.name = nm) pool i
      (fun e he => by simp [hpre e he]) (by simpa using hi)
    simp [getImageIdByName, this]
  · intro h
    simp [getImageIdByName, hnone h]
  · intro hint h
    have hint2 : goAtoi nm.data = none := hint
    simp [resolveCloneSource, hint2, getImageIdByName, hnone h]

/-- Witness for C7 at the spec's example pool with names ["a","b","a"]:
resolving "a" yields the first entry's ID and resolving "c" is NotFound,
hard for the clone path. -/
theorem C7_name_resolution_witness :
    getImageIdByName [⟨"a", 1⟩, ⟨"b", 2⟩, ⟨"a", 3⟩] "a" = Except.ok 1
    ∧ getImageIdByName [⟨"a", 1⟩, ⟨"b", 2⟩, ⟨"a", 3⟩] "c" = Except.error "ImageNotFound"
    ∧ resolveCloneSource "c" [⟨"a", 1⟩, ⟨"b", 2⟩, ⟨"a", 3⟩] =
        Except.error ("Unable to find Image by ID or name " ++ "c") :=
  ⟨(C7_name_resolution [⟨"a", 1⟩, ⟨"b", 2⟩, ⟨"a", 3⟩] "a").1 ⟨0, by decide⟩
      (by decide) (by decide),
   (C7_name_resolution [⟨"a", 1⟩, ⟨"b", 2⟩, ⟨"a", 3⟩] "c").2.1 (by decide),
   (C7_name_resolution [⟨"a", 1⟩, ⟨"b", 2⟩, ⟨"a", 3⟩] "c").2.2 (by decide) (by decide)⟩

/-- An IPv4 address as four octets.  `net.ParseIP(..).To4()` yields a 4-byte
slice; the lease walk mutates the last byte, which wraps modulo 256 as a Go
byte does. -/
structure IPv4 where
  o1 : Nat
  o2 : Nat
  o3 : Nat
  o4 : Nat
deriving DecidableEq, Repr

/-- Dotted-quad rendering used by `fmt.Sprintf("%s", ip)`. -/
def IPv4.render (ip : IPv4) : String :=
  toString ip.o1 ++ "." ++ toString ip.o2 ++ "." ++ toString ip.o3 ++ "." ++ toString ip.o4

/-- The loop step `ip[3]++` on the 4-byte slice: byte increment of the last
octet. -/
def IPv4.incLast (ip : IPv4) : IPv4 := ⟨ip.o1, ip.o2, ip.o3, (ip.o4 + 1) % 256⟩

/-- Address whose last octet is `i` more than the one of `ip` (as byte
arithmetic). -/
def IPv4.addLast (ip : IPv4) (i : Nat) : IPv4 := ⟨ip.o1, ip.o2, ip.o3, (ip.o4 + i) % 256⟩

/-- One `hold`/`release` call: the numeric network ID and the
`LEASES=[IP=<addr>]` fragment. -/
def leaseCall (method : String) (vid : Nat) (ip : IPv4) : RCall :=
  ⟨method, [toString vid, "LEASES=[IP=" ++ ip.render ++ "]"]⟩

/-- The lease loop of the create and delete paths: `count` iterations, one
call per iteration, incrementing the last octet after each call. -/
def leaseLoop (method : String) (vid : Nat) : IPv4 → Nat → List RCall
  | _, 0 => []
  | ip, n + 1 => leaseCall method vid ip :: leaseLoop method vid ip.incLast n

/-- Result of a driver path: the remote calls issued, and the error it
returns (`none` = success). -/
structure TraceRes where
  calls : List RCall
  err : Option String
deriving DecidableEq, Repr

/-- The lease loop as executed in Go when the starting IP comes from
`net.ParseIP(d.Get("ip_start"))`: an unset start parses to a nil slice, so
a first iteration would format `<nil>` and then panic on `ip[3]++`. -/
def leaseWalkGo (method : String) (vid : Nat) (start : Option IPv4) (count : Nat) : TraceRes :=
  match start with
  | some s => ⟨leaseLoop method vid s count, none⟩
  | none =>
      if count = 0 then ⟨[], none⟩
      else ⟨[⟨method, [toString vid, "LEASES=[IP=<nil>]"]⟩], some "panic: nil IP in lease walk"⟩

/-- Modelled from the spec: the shared helper
`changePermissions(id, perms, client, method)` is not among the provided
sources (only its call sites are); per the external-interface table it
issues the given `*.chmod` method with the numeric ID and the nine
per-subject permission bits. -/
def changePermissionsCall (vid : Nat) (p : Permissions) (method : String) : RCall :=
  ⟨method, [toString vid,
    toString p.owner_u, toString p.owner_m, toString p.owner_a,
    toString p.group_u, toString p.group_m, toString p.group_a,
    toString p.other_u, toString p.other_m, toString p.other_a]⟩

/-- The desired-configuration record of the VirtualNetwork driver (the
schema fields the create/update/delete paths read).  `none` models a field
that is unset or holds its type's zero value, matching Terraform's `GetOk`;
`d.Get` on such a field yields the zero value (`getD`). -/
structure VnetConfig where
  name : String
  description : Option String
  bridge : Option String
  vn_mad : Option String
  phydev : Option String
  vlan_id : Option Nat
  networkmask : Option String
  gateway : Option String
  dns : Option String
  permissions : Option String
  ip_start : Option IPv4
  ip_size : Option Nat
  hold_size : Option Nat
  reservation_vnet : Option Nat
  reservation_size : Option Nat
  security_groups : Option (List Nat)
deriving Repr

/-- CONTEXT portion of the vnet allocation template (NETWORK_MASK, GATEWAY,
DNS appended in source order when present). -/
def vnetCtxSuffix (cfg : VnetConfig) (base : String) : String :=
  let b1 := match cfg.networkmask with
    | some v => base ++ "\nNETWORK_MASK=\"" ++ v ++ "\""
    | none => base
  let b2 := match cfg.gateway with
    | some v => b1 ++ "\nGATEWAY=\"" ++ v ++ "\""
    | none => b1
  match cfg.dns with
  | some v => b2 ++ "\nDNS=\"" ++ v ++ "\""
  | none => b2

/-- The attribute-per-line allocation template built by `resourceVnetCreate`
for a fresh network: NAME, then each optional field when present, erroring
when `vn_mad` is `802.1q` without both `phydev` and `vlan_id`. -/
def vnetTemplate (cfg : VnetConfig) : Except String String :=
  let b0 := "NAME=\"" ++ cfg.name ++ "\""
  let b1 := match cfg.description with
    | some d => b0 ++ "\nDESCRIPTION=\"" ++ d ++ "\""
    | none => b0
  let b2 := match cfg.bridge with
    | some b => b1 ++ "\nBRIDGE=\"" ++ b ++ "\""
    | none => b1
  match cfg.vn_mad with
  | some vm =>
      let b3 := b2 ++ "\nVN_MAD=\"" ++ vm ++ "\""
      if vm = "802.1q" then
        match cfg.phydev, cfg.vlan_id with
        | some pd, some vl =>
            Except.ok (vnetCtxSuffix cfg
              (b3 ++ "\nPHYDEV=\"" ++ pd ++ "\"" ++ "\nVLAN_ID=\"" ++ toString vl ++ "\""))
        | _, _ => Except.error "For vn_mad 802.1q, both phydev and vlan_id should be given"
      else Except.ok (vnetCtxSuffix cfg b3)
  | none => Except.ok (vnetCtxSuffix cfg b2)

/-- The `AR = [ TYPE = IP4, IP = .., SIZE = .. ]` block of `one.vn.add_ar`. -/
def arBlock (s : IPv4) (size : Nat) : String :=
  "AR = [\n  TYPE = IP4,\n  IP = " ++ s.render ++ ",\n  SIZE = " ++ toString size ++ " ]"

/-- Comma-separated security group list of `setVnetSecurityGroups`. -/
def secGroupsString (l : List Nat) : String :=
  String.intercalate "," (l.map toString)

/-- Chmod step of the vnet create path (issued when `permissions` is set). -/
def vnetChmodCalls (cfg : VnetConfig) (vid : Nat) : List RCall :=
  match cfg.permissions with
  | some p => [changePermissionsCall vid (permission p.toList) "one.vn.chmod"]
  | none => []

/-- Address-range step of the vnet create path: one `one.vn.add_ar` call
when `ip_start` is set, with size `ip_size` defaulting to 1. -/
def vnetAddArCalls (cfg : VnetConfig) (vid : Nat) : List RCall :=
  match cfg.ip_start with
  | some s => [⟨"one.vn.add_ar", [toString vid, arBlock s (cfg.ip_size.getD 1)]⟩]
  | none => []

/-- Hold step of the vnet create path: the lease walk over `hold_size`
addresses when `hold_size > 0`. -/
def vnetHoldPart (cfg : VnetConfig) (vid : Nat) : TraceRes :=
  if cfg.hold_size.getD 0 > 0 then
    leaseWalkGo "one.vn.hold" vid cfg.ip_start (cfg.hold_size.getD 0)
  else ⟨[], none⟩

/-- Security-group step shared by vnet create and update
(`setVnetSecurityGroups`): one merge-mode `one.vn.update` call. -/
def vnetSecCalls (cfg : VnetConfig) (vid : Nat) : List RCall :=
  match cfg.security_groups with
  | some l =>
      [⟨"one.vn.update",
        [toString vid, "SECURITY_GROUPS=\"" ++ secGroupsString l ++ "\"", "1"]⟩]
  | none => []

/-- The fresh-allocation branch of `resourceVnetCreate` (taken when
`reservation_vnet` is unset): build the template, allocate, chmod when
permissions are set, add the address range, walk the holds, then apply the
security groups.  `vid` is the network ID returned by the allocate call;
the trailing delegation to `resourceVnetRead` is modelled separately by
`vnetRead`. -/
def vnetCreateFresh (cfg : VnetConfig) (vid : Nat) : TraceRes :=
  match vnetTemplate cfg with
  | Except.error e => ⟨[], some e⟩
  | Except.ok tmpl =>
      let pre := RCall.mk "one.vn.allocate" [tmpl, "-1"] ::
        (vnetChmodCalls cfg vid ++ vnetAddArCalls cfg vid)
      let hp := vnetHoldPart cfg vid
      match hp.err with
      | some e => ⟨pre ++ hp.calls, some e⟩
      | none => ⟨pre ++ hp.calls ++ vnetSecCalls cfg vid, none⟩

/-- Remote responses consumed by a read path: whether the by-ID `*.info`
call succeeds, and the visible pool delivered by the `*pool.info` call as
(name, ID) pairs (`none` models a failing pool call). -/
structure ReadEnv where
  infoOk : Bool
  pool : Option (List (String × Nat))

/-- Result of a driver read path: the calls issued, the resolved numeric ID
(`none` when nothing resolved and the local identity was cleared), and an
error. -/
structure ReadRes where
  calls : List RCall
  resolved : Option Nat
  err : Option String
deriving DecidableEq, Repr

/-- Pool-scan fallback of `resourceVnetRead`: fetch the visible pool with
`one.vnpool.info -2 -1 -1` and return the first entry with the requested
name; clear the identity when nothing matches. -/
def vnetReadPool (pre : List RCall) (nm : String) (env : ReadEnv) : ReadRes :=
  let pc := RCall.mk "one.vnpool.info" ["-2", "-1", "-1"]
  match env.pool with
  | none => ⟨pre ++ [pc], none, some "vnet pool info call failed"⟩
  | some pool =>
      match pool.find? (fun t => t.1 = nm) with
      | some t => ⟨pre ++ [pc], some t.2, none⟩
      | none => ⟨pre ++ [pc], none, none⟩

/-- `resourceVnetRead`: try the stored ID through `one.vn.info` first, then
fall back to the (owner, name) pool scan. -/
def vnetRead (storedId : Option Nat) (nm : String) (env : ReadEnv) : ReadRes :=
  match storedId with
  | some i =>
      let ic := RCall.mk "one.vn.info" [toString i, "false"]
      if env.infoOk then ⟨[ic], some i, none⟩
      else vnetReadPool [ic] nm env
  | none => vnetReadPool [] nm env

/-- Release step of `resourceVnetDelete`: when `hold_size > 0`, the lease
walk from `ip_start` bounded by `d.Get("reservation_size")` (the loop bound
written in the source). -/
def vnetReleasePart (cfg : VnetConfig) (vid : Nat) : TraceRes :=
  if cfg.hold_size.getD 0 > 0 then
    leaseWalkGo "one.vn.release" vid cfg.ip_start (cfg.reservation_size.getD 0)
  else ⟨[], none⟩

/-- `resourceVnetDelete`: re-read (returning early when nothing resolves),
run the release step, then issue `one.vn.delete` and return — the vnet
driver does not poll after its delete call. -/
def vnetDelete (cfg : VnetConfig) (storedId : Option Nat) (env : ReadEnv) : TraceRes :=
  let r := vnetRead storedId cfg.name env
  match r.err with
  | some e => ⟨r.calls, some e⟩
  | none =>
      match r.resolved with
      | none => ⟨r.calls, none⟩
      | some vid =>
          let rel := vnetReleasePart cfg vid
          match rel.err with
          | some e => ⟨r.calls ++ rel.calls, some e⟩
          | none =>
              ⟨r.calls ++ rel.calls ++ [RCall.mk "one.vn.delete" [toString vid, "false"]],
               none⟩

lemma IPv4.addLast_zero {s : IPv4} (h : s.o4 < 256) : s.addLast 0 = s := by
  cases s
  simp only [IPv4.addLast, IPv4.mk.injEq, true_and] at *
  omega

lemma IPv4.addLast_succ (s : IPv4) (i : Nat) : s.incLast.addLast i = s.addLast (i + 1) := by
  cases s
  simp only [IPv4.addLast, IPv4.incLast, IPv4.mk.injEq, true_and]
  omega

lemma leaseLoop_eq_map (method : String) (vid : Nat) :
    ∀ (n : Nat) (s : IPv4), s.o4 < 256 →
      leaseLoop method vid s n
        = (List.range n).map (fun i => leaseCall method vid (s.addLast i))
  | 0, _, _ => by simp [leaseLoop]
  | n + 1, s, h => by
      rw [List.range_succ_eq_map, List.map_cons, List.map_map]
      show leaseCall method vid s :: leaseLoop method vid s.incLast n = _
      rw [leaseLoop_eq_map method vid n s.incLast (Nat.mod_lt _ (by omega))]
      congr 1
      · rw [IPv4.addLast_zero h]
      · apply List.map_congr_left
        intro i _
        simp [Function.comp, IPv4.addLast_succ]

lemma vnetChmodCalls_no_hold (cfg : VnetConfig) (vid : Nat) :
    (vnetChmodCalls cfg vid).all (fun c => c.method ≠ "one.vn.hold") = true := by
  cases h : cfg.permissions <;> simp [vnetChmodCalls, h, changePermissionsCall]

lemma vnetSecCalls_no_hold (cfg : VnetConfig) (vid : Nat) :
    (vnetSecCalls cfg vid).all (fun c => c.method ≠ "one.vn.hold") = true := by
  cases h : cfg.security_groups <;> simp [vnetSecCalls, h]

/-- Claim C6: the fresh-allocation create path with start IP `s` and hold
count `n > 0` issues exactly `n` hold calls, the i-th carrying the address
obtained from `s` by adding `i` to the last octet, in increasing order of
`i`, after the single `one.vn.add_ar` call whose size defaults to 1 when
`ip_size` is unset; no hold call is issued anywhere else. -/
theorem C6_create_hold_walk (cfg : VnetConfig) (vid : Nat) (s : IPv4) (n : Nat)
    (hip : cfg.ip_start = some s) (hb : s.o4 < 256)
    (hn : cfg.hold_size = some n) (hpos : 0 < n)
    (htmpl : ∃ t, vnetTemplate cfg = Except.ok t) :
    ∃ pre post,
      (vnetCreateFresh cfg vid).err = none
      ∧ (vnetCreateFresh cfg vid).calls =
          pre ++ RCall.mk "one.vn.add_ar" [toString vid, arBlock s (cfg.ip_size.getD 1)] ::
            ((List.range n).map (fun i => leaseCall "one.vn.hold" vid (s.addLast i)) ++ post)
      ∧ pre.all (fun c => c.method ≠ "one.vn.hold") = true
      ∧ post.all (fun c => c.method ≠ "one.vn.hold") = true := by
  obtain ⟨t, ht⟩ := htmpl
  have hhold : vnetHoldPart cfg vid = ⟨leaseLoop "one.vn.hold" vid s n, none⟩ := by
    simp [vnetHoldPart, hn, hip, leaseWalkGo, hpos]
  refine ⟨RCall.mk "one.vn.allocate" [t, "-1"] :: vnetChmodCalls cfg vid,
    vnetSecCalls cfg vid, ?_, ?_, ?_, vnetSecCalls_no_hold cfg vid⟩
  · simp [vnetCreateFresh, ht, hhold]
  · simp only [vnetCreateFresh, ht, hhold, vnetAddArCalls, hip,
      leaseLoop_eq_map "one.vn.hold" vid n s hb]
    simp
  · rw [List.all_cons, vnetChmodCalls_no_hold cfg vid, Bool.and_true]
    rfl

/-- The fresh-allocation configuration used as concrete input for C6 and
C1: network "net1", start IP 10.0.0.5, hold_size 3, everything else unset
(the schema's ConflictsWith keeps the reservation fields unset whenever
hold_size is set). -/
def c1cfg : VnetConfig :=
  ⟨"net1", none, none, none, none, none, none, none, none, none,
   some ⟨10, 0, 0, 5⟩, none, some 3, none, none, none⟩

/-- Witness for C6 at `c1cfg`: start 10.0.0.5, hold count 3, allocated
network ID 7. -/
theorem C6_create_hold_walk_witness :
    ∃ pre post,
      (vnetCreateFresh c1cfg 7).err = none
      ∧ (vnetCreateFresh c1cfg 7).calls =
          pre ++ RCall.mk "one.vn.add_ar" [toString 7, arBlock ⟨10, 0, 0, 5⟩ (c1cfg.ip_size.getD 1)] ::
            ((List.range 3).map
              (fun i => leaseCall "one.vn.hold" 7 (IPv4.addLast ⟨10, 0, 0, 5⟩ i)) ++ post)
      ∧ pre.all (fun c => c.method ≠ "one.vn.hold") = true
      ∧ post.all (fun c => c.method ≠ "one.vn.hold") = true :=
  C6_create_hold_walk c1cfg 7 ⟨10, 0, 0, 5⟩ 3 rfl (by decide) rfl (by decide)
    ⟨"NAME=\"net1\"", rfl⟩

/-- Claim C1 (refuted by the code): at the failing input `c1cfg` (hold
count 3 from 10.0.0.5, reservation fields unset) the create path issues
hold calls for 10.0.0.5, 10.0.0.6, 10.0.0.7 in that order, yet the delete
path issues zero release calls before the remote delete, because the
release loop of `resourceVnetDelete` is bounded by
`d.Get("reservation_size")` (zero here) instead of `hold_size`. -/
theorem C1_release_sequence_mismatch :
    ((vnetCreateFresh c1cfg 7).calls.filter (fun c => c.method = "one.vn.hold")) =
      [leaseCall "one.vn.hold" 7 ⟨10, 0, 0, 5⟩, leaseCall "one.vn.hold" 7 ⟨10, 0, 0, 6⟩,
       leaseCall "one.vn.hold" 7 ⟨10, 0, 0, 7⟩]
    ∧ (vnetDelete c1cfg (some 7) ⟨true, none⟩).err = none
    ∧ ((vnetDelete c1cfg (some 7) ⟨true, none⟩).calls.filter
        (fun c => c.method = "one.vn.release")) = []
    ∧ RCall.mk "one.vn.delete" ["7", "false"] ∈ (vnetDelete c1cfg (some 7) ⟨true, none⟩).calls := by
  refine ⟨by decide, by decide, by decide, by decide⟩

/-- Diff flags and new field values consumed by `resourceImageUpdate`.  A
Terraform diff carries no declaration order: which fields changed is a set,
modelled as one flag per field, so the call order below is fixed by the
code alone. -/
structure ImageUpdateIn where
  descriptionChanged : Bool
  nameChanged : Bool
  permissionsChanged : Bool
  description : String
  name : String
  permissions : String
deriving Repr

/-- `resourceImageUpdate`: a description update in replace mode 0 (the
source comments "replace the whole image instead of merging it with the
existing one"), then a rename, then a chmod, each only when its field
changed. -/
def imageUpdateCalls (iid : Nat) (u : ImageUpdateIn) : List RCall :=
  (if u.descriptionChanged then
    [⟨"one.image.update", [toString iid, u.description, "0"]⟩] else []) ++
  (if u.nameChanged then [⟨"one.image.rename", [toString iid, u.name]⟩] else []) ++
  (if u.permissionsChanged then
    [changePermissionsCall iid (permission u.permissions.toList) "one.image.chmod"]
   else [])

/-- Diff flags and new field values consumed by `resourceVnetUpdate`
(`oldIpStart` is the old value from `d.GetChange("ip_start")`).  The guards
`d.Get("uid") != ""` and `d.Get("gid") != ""` in the source compare an int
against a string and hence always hold, so the chown condition reduces to
the change flags. -/
structure VnetUpdateIn where
  descriptionChanged : Bool
  description : String
  dnsChanged : Bool
  dns : String
  gatewayChanged : Bool
  gateway : String
  networkmaskChanged : Bool
  networkmask : String
  securityGroupsChanged : Bool
  security_groups : List Nat
  nameChanged : Bool
  name : String
  ipStartChanged : Bool
  oldIpStart : String
  ip_start : String
  ipSizeChanged : Bool
  ip_size : Nat
  uidChanged : Bool
  uid : Nat
  gidChanged : Bool
  gid : Nat
  permissionsChanged : Bool
  permissions : String
deriving Repr

/-- The address-range method selected by `resourceVnetUpdate`: `add_ar`
when `ip_start` changed from empty, the empty method name when it changed
from a non-empty value (the source only logs a warning and leaves
`vn_ar_cmd` unset), `update_ar` when it did not change. -/
def vnetArCmd (u : VnetUpdateIn) : String :=
  if u.ipStartChanged then
    (if u.oldIpStart = "" then "one.vn.add_ar" else "")
  else "one.vn.update_ar"

/-- The `AR = [ AR_ID = 0, ... ]` block of the update path's resize call. -/
def arUpdateBlock (ipStr : String) (size : Nat) : String :=
  "AR = [\nAR_ID = 0,\nTYPE = IP4,\nIP = " ++ ipStr ++ ",\nSIZE = " ++ toString size ++ " ]"

/-- `resourceVnetUpdate`: the per-field remote calls in source order —
description, DNS, gateway, network mask, security groups (all merge-mode
updates), rename, address-range resize, chown, chmod — each only when its
field changed (chmod additionally requires a non-empty permission string,
chown sends -1 for an unchanged owner half). -/
def vnetUpdateCalls (vid : Nat) (u : VnetUpdateIn) : List RCall :=
  (if u.descriptionChanged then
    [⟨"one.vn.update", [toString vid, "DESCRIPTION=\"" ++ u.description ++ "\"", "1"]⟩]
   else []) ++
  (if u.dnsChanged then
    [⟨"one.vn.update", [toString vid, "DNS=\"" ++ u.dns ++ "\"", "1"]⟩] else []) ++
  (if u.gatewayChanged then
    [⟨"one.vn.update", [toString vid, "GATEWAY=\"" ++ u.gateway ++ "\"", "1"]⟩] else []) ++
  (if u.networkmaskChanged then
    [⟨"one.vn.update", [toString vid, "NETWORK_MASK=\"" ++ u.networkmask ++ "\"", "1"]⟩]
   else []) ++
  (if u.securityGroupsChanged then
    [⟨"one.vn.update",
      [toString vid, "SECURITY_GROUPS=\"" ++ secGroupsString u.security_groups ++ "\"", "1"]⟩]
   else []) ++
  (if u.nameChanged then [⟨"one.vn.rename", [toString vid, u.name]⟩] else []) ++
  (if u.ipSizeChanged then
    [⟨vnetArCmd u, [toString vid, arUpdateBlock u.ip_start u.ip_size]⟩] else []) ++
  (if u.uidChanged ∨ u.gidChanged then
    [⟨"one.vn.chown",
      [toString vid, toString (if u.uidChanged then (u.uid : Int) else -1),
       toString (if u.gidChanged then (u.gid : Int) else -1)]⟩]
   else []) ++
  (if u.permissionsChanged ∧ u.permissions ≠ "" then
    [changePermissionsCall vid (permission u.permissions.toList) "one.vn.chmod"] else [])

/-- `resourceVmUpdate`: the only handled diff is the permission change. -/
def vmUpdateCalls (vid : Nat) (permissionsChanged : Bool) (perms : String) : List RCall :=
  if permissionsChanged ∧ perms ≠ "" then
    [changePermissionsCall vid (permission perms.toList) "one.vm.chmod"]
  else []

/-- `resourceSecurityGroupUpdate`: a chmod when permissions changed, then —
when the rule set changed — a replace-mode template update followed, when
the `commit` flag is set, by `one.secgroup.commit` with the outdated-only
flag.  `xmlTemplate` stands for the XML document produced by
`generateSecurityGroupXML`. -/
def secGroupUpdateCalls (sid : Nat) (permissionsChanged : Bool) (perms : String)
    (ruleChanged : Bool) (xmlTemplate : String) (commit : Bool) : List RCall :=
  (if permissionsChanged ∧ perms ≠ "" then
    [changePermissionsCall sid (permission perms.toList) "one.secgroup.chmod"] else []) ++
  (if ruleChanged then
    ⟨"one.secgroup.update", [toString sid, xmlTemplate, "0"]⟩ ::
      (if commit then [⟨"one.secgroup.commit", [toString sid, "false"]⟩] else [])
   else [])

/-- Counterexample to C3 as stated: with only the description changed, the
Image driver's single remote call carries mode argument "0" (replace), not
"1" (merge). -/
theorem C3_description_mode_counterexample :
    ((imageUpdateCalls 4 ⟨true, false, false, "d", "", ""⟩).map (fun c => c.args)) =
      [["4", "d", "0"]]
    ∧ ((imageUpdateCalls 4 ⟨true, false, false, "d", "", ""⟩).map (fun c => c.args)) ≠
      [["4", "d", "1"]] := by
  refine ⟨by decide, by decide⟩

/-- Claim C3 amended: when the description changed, the VirtualNetwork
driver issues its description update in merge mode (1) while the Image
driver issues its description update in replace mode (0). -/
theorem C3_description_update_modes (iid vid : Nat) (iu : ImageUpdateIn)
    (vu : VnetUpdateIn) (hi : iu.descriptionChanged = true)
    (hv : vu.descriptionChanged = true) :
    (⟨"one.image.update", [toString iid, iu.description, "0"]⟩ : RCall)
        ∈ imageUpdateCalls iid iu
    ∧ (⟨"one.vn.update", [toString vid, "DESCRIPTION=\"" ++ vu.description ++ "\"", "1"]⟩ : RCall)
        ∈ vnetUpdateCalls vid vu := by
  constructor
  · simp [imageUpdateCalls, hi]
  · simp [vnetUpdateCalls, hv]

/-- Witness for the amended C3 at image ID 4 and vnet ID 5 with descriptions
changed to "d". -/
theorem C3_description_update_modes_witness :
    (⟨"one.image.update", ["4", "d", "0"]⟩ : RCall)
        ∈ imageUpdateCalls 4 ⟨true, false, false, "d", "", ""⟩
    ∧ (⟨"one.vn.update", ["5", "DESCRIPTION=\"d\"", "1"]⟩ : RCall)
        ∈ vnetUpdateCalls 5 ⟨true, "d", false, "", false, "", false, "", false, [],
            false, "", false, "", "", false, 0, false, 0, false, 0, false, ""⟩ :=
  C3_description_update_modes 4 5 ⟨true, false, false, "d", "", ""⟩
    ⟨true, "d", false, "", false, "", false, "", false, [],
     false, "", false, "", "", false, 0, false, 0, false, 0, false, ""⟩ rfl rfl

/-- Claim C10: with name, permissions and description all changed (and no
other field), the Image and VirtualNetwork update paths each issue exactly
description-update, rename, chmod, in that order (the diff is a set of
changed fields, so no declaration order can influence this); an empty diff
issues zero remote calls in every driver. -/
theorem C10_update_order (iid vid wid sid : Nat) (d nm p vd vnm vp xs : String)
    (hp : vp ≠ "") :
    (imageUpdateCalls iid ⟨true, true, true, d, nm, p⟩).map (fun c => c.method) =
      ["one.image.update", "one.image.rename", "one.image.chmod"]
    ∧ (vnetUpdateCalls vid ⟨true, vd, false, "", false, "", false, "", false, [],
        true, vnm, false, "", "", false, 0, false, 0, false, 0, true, vp⟩).map
          (fun c => c.method) =
      ["one.vn.update", "one.vn.rename", "one.vn.chmod"]
    ∧ imageUpdateCalls iid ⟨false, false, false, d, nm, p⟩ = []
    ∧ vnetUpdateCalls vid ⟨false, vd, false, "", false, "", false, "", false, [],
        false, vnm, false, "", "", false, 0, false, 0, false, 0, false, vp⟩ = []
    ∧ vmUpdateCalls wid false vp = []
    ∧ secGroupUpdateCalls sid false vp false xs true = [] := by
  refine ⟨by simp [imageUpdateCalls, changePermissionsCall], ?_,
    by simp [imageUpdateCalls], by simp [vnetUpdateCalls],
    by simp [vmUpdateCalls], by simp [secGroupUpdateCalls]⟩
  simp [vnetUpdateCalls, hp, changePermissionsCall]

/-- Witness for C10 at concrete IDs and values. -/
theorem C10_update_order_witness :
    (imageUpdateCalls 4 ⟨true, true, true, "d", "n", "640"⟩).map (fun c => c.method) =
      ["one.image.update", "one.image.rename", "one.image.chmod"]
    ∧ (vnetUpdateCalls 5 ⟨true, "d", false, "", false, "", false, "", false, [],
        true, "n", false, "", "", false, 0, false, 0, false, 0, true, "640"⟩).map
          (fun c => c.method) =
      ["one.vn.update", "one.vn.rename", "one.vn.chmod"]
    ∧ imageUpdateCalls 4 ⟨false, false, false, "d", "n", "640"⟩ = []
    ∧ vnetUpdateCalls 5 ⟨false, "d", false, "", false, "", false, "", false, [],
        false, "n", false, "", "", false, 0, false, 0, false, 0, false, "640"⟩ = []
    ∧ vmUpdateCalls 6 false "640" = []
    ∧ secGroupUpdateCalls 7 false "640" false "" true = [] :=
  C10_update_order 4 5 6 7 "d" "n" "640" "d" "n" "640" "" (by decide)

/-- Response of a `*.info` call during polling: the call failed, the
payload failed to unmarshal, or a view of the resource was returned. -/
inductive InfoResp (α : Type) where
  | errCall
  | badXml
  | okView (v : α)
deriving DecidableEq, Repr

/-- Result of one refresh-closure invocation: optional snapshot,
classification string, and the error returned alongside them. -/
structure RefreshOut (α : Type) where
  snap : Option α
  cls : String
  err : Option String
deriving DecidableEq, Repr

/-- The fields of an Image info payload the poller inspects (`Image{}` is
the empty struct returned on a failing info call). -/
structure ImageView where
  id : Nat
  state : Nat
deriving DecidableEq, Repr

/-- The refresh closure of `waitForImageState` (resource_image.go): a
failing `one.image.info` call classifies as "notfound" with an empty
snapshot and no error (so the wait does not abort); lifecycle state 1 is
"ready"; state 5 is "error" together with a terminal error value; any
other state is the pending classification "anythingelse"; an unmarshal
failure is a hard error.  Every call site runs with a non-empty stored
ID. -/
def imageRefresh (iid : Nat) (resp : InfoResp ImageView) : RefreshOut ImageView :=
  match resp with
  | InfoResp.errCall => ⟨some ⟨0, 0⟩, "notfound", none⟩
  | InfoResp.badXml => ⟨none, "", some "Could not fetch Image state"⟩
  | InfoResp.okView v =>
      if v.state = 1 then ⟨some v, "ready", none⟩
      else if v.state = 5 then
        ⟨some v, "error", some ("Image ID " ++ toString iid ++ " entered error state.")⟩
      else ⟨some v, "anythingelse", none⟩

/-- The fields of a VM info payload the poller inspects: coarse state, LCM
state, and the free-form user template. -/
structure VmView where
  state : Nat
  lcmState : Nat
  userTemplate : List (String × String)
deriving DecidableEq, Repr

/-- Go map read `m[k]` on the unmarshalled user template: the stored value,
or the empty string when the key is absent. -/
def mapGet (m : List (String × String)) (k : String) : String :=
  ((m.find? (fun e => e.1 = k)).map (fun e => e.2)).getD ""

/-- Diagnostic of the VM fail state: the free-form ERROR user-template
value when non-empty, the generic message otherwise (the Go map read makes
an absent key and an empty value indistinguishable here). -/
def vmErrMsg (v : VmView) : String :=
  if mapGet v.userTemplate "ERROR" ≠ "" then mapGet v.userTemplate "ERROR"
  else "No error was found"

/-- The refresh closure of `waitForVmState` (resource_vm.go): a failing
`one.vm.info` call is a hard error (no pending retry); coarse state 3 with
LCM state 3 is "running"; coarse 6 is "done"; coarse 3 with LCM 36 is the
"boot_failure" classification with a terminal error embedding `vmErrMsg`;
anything else is pending. -/
def vmRefresh (vid : Nat) (resp : InfoResp VmView) : RefreshOut VmView :=
  match resp with
  | InfoResp.errCall => ⟨none, "", some ("Could not find VM by ID " ++ toString vid)⟩
  | InfoResp.badXml => ⟨none, "", some "Could not fetch VM state"⟩
  | InfoResp.okView v =>
      if v.state = 3 ∧ v.lcmState = 3 then ⟨some v, "running", none⟩
      else if v.state = 6 then ⟨some v, "done", none⟩
      else if v.state = 3 ∧ v.lcmState = 36 then
        ⟨some v, "boot_failure",
         some ("VM ID " ++ toString vid ++ " entered fail state, error message: " ++ vmErrMsg v)⟩
      else ⟨some v, "anythingelse", none⟩

/-- Modelled from the spec: the generic wait-for-terminal-state loop the
drivers delegate to (§4.4) — each poll issues the kind's info call and runs
the refresh closure on the response; an error outcome is terminal failure;
the target classification is terminal success with the last snapshot; any
other classification is pending and re-polls; an exhausted response list is
the timeout failure.  The loop itself lives in the declarative-configuration
framework, outside this repository's sources. -/
def runWait {α : Type} (refresh : InfoResp α → RefreshOut α) (target : String)
    (ic : RCall) : List (InfoResp α) → List RCall × Except String (Option α)
  | [] => ([], Except.error "timeout while waiting for state")
  | r :: rest =>
      match (refresh r).err with
      | some e => ([ic], Except.error e)
      | none =>
          if (refresh r).cls = target then ([ic], Except.ok (refresh r).snap)
          else
            let next := runWait refresh target ic rest
            (ic :: next.1, next.2)

/-- Shared shape of the four read paths: try the stored ID through the
kind's info call; on failure or absence fall back to the kind's pool-info
call and first-name-match scan, clearing the identity when nothing
matches. -/
def readByIdOrName (infoC : Nat → RCall) (poolC : RCall) (poolFailMsg : String)
    (storedId : Option Nat) (nm : String) (env : ReadEnv) : ReadRes :=
  let scan : List RCall → ReadRes := fun pre =>
    match env.pool with
    | none => ⟨pre ++ [poolC], none, some poolFailMsg⟩
    | some pool =>
        match pool.find? (fun t => t.1 = nm) with
        | some t => ⟨pre ++ [poolC], some t.2, none⟩
        | none => ⟨pre ++ [poolC], none, none⟩
  match storedId with
  | some i => if env.infoOk then ⟨[infoC i], some i, none⟩ else scan [infoC i]
  | none => scan []

/-- `resourceImageRead`: `one.image.info <id> false`, falling back to the
`one.imagepool.info -2 -1 -1` name scan. -/
def imageRead (storedId : Option Nat) (nm : String) (env : ReadEnv) : ReadRes :=
  readByIdOrName (fun i => ⟨"one.image.info", [toString i, "false"]⟩)
    ⟨"one.imagepool.info", ["-2", "-1", "-1"]⟩ "image pool info call failed"
    storedId nm env

/-- `resourceVmRead`: `one.vm.info <id>`, falling back to the
`one.vmpool.info -3 -1 -1` name scan. -/
def vmRead (storedId : Option Nat) (nm : String) (env : ReadEnv) : ReadRes :=
  readByIdOrName (fun i => ⟨"one.vm.info", [toString i]⟩)
    ⟨"one.vmpool.info", ["-3", "-1", "-1"]⟩ "vm pool info call failed"
    storedId nm env

/-- `resourceSecurityGroupRead`: `one.secgroup.info <id>`, falling back to
the `one.secgrouppool.info -2 -1 -1` name scan. -/
def secGroupRead (storedId : Option Nat) (nm : String) (env : ReadEnv) : ReadRes :=
  readByIdOrName (fun i => ⟨"one.secgroup.info", [toString i]⟩)
    ⟨"one.secgrouppool.info", ["-2", "-1", "-1"]⟩ "secgroup pool info call failed"
    storedId nm env

/-- `resourceImageDelete`: re-read (returning early when nothing resolves),
issue `one.image.delete`, then wait for the "notfound" classification,
polling `one.image.info` once per response. -/
def imageDelete (storedId : Option Nat) (nm : String) (env : ReadEnv)
    (polls : List (InfoResp ImageView)) : TraceRes :=
  let r := imageRead storedId nm env
  match r.err with
  | some e => ⟨r.calls, some e⟩
  | none =>
      match r.resolved with
      | none => ⟨r.calls, none⟩
      | some iid =>
          let del := RCall.mk "one.image.delete" [toString iid, "false"]
          let w := runWait (imageRefresh iid) "notfound"
            (RCall.mk "one.image.info" [toString iid]) polls
          match w.2 with
          | Except.ok _ => ⟨r.calls ++ del :: w.1, none⟩
          | Except.error e =>
              ⟨r.calls ++ del :: w.1,
               some ("Error waiting for Image to be in state NOTFOUND: " ++ e)⟩

/-- `resourceVmDelete`: re-read (returning early when nothing resolves),
issue the `terminate-hard` action, then wait for the "done" classification,
polling `one.vm.info` once per response. -/
def vmDelete (storedId : Option Nat) (nm : String) (env : ReadEnv)
    (polls : List (InfoResp VmView)) : TraceRes :=
  let r := vmRead storedId nm env
  match r.err with
  | some e => ⟨r.calls, some e⟩
  | none =>
      match r.resolved with
      | none => ⟨r.calls, none⟩
      | some vid =>
          let act := RCall.mk "one.vm.action" ["terminate-hard", toString vid]
          let w := runWait (vmRefresh vid) "done"
            (RCall.mk "one.vm.info" [toString vid]) polls
          match w.2 with
          | Except.ok _ => ⟨r.calls ++ act :: w.1, none⟩
          | Except.error e =>
              ⟨r.calls ++ act :: w.1,
               some ("Error waiting for virtual machine to be in state DONE: " ++ e)⟩

/-- `resourceSecurityGroupDelete`: re-read (returning early when nothing
resolves), issue `one.secgroup.delete` and return — this driver does not
poll after its delete call. -/
def secGroupDelete (storedId : Option Nat) (nm : String) (env : ReadEnv) : TraceRes :=
  let r := secGroupRead storedId nm env
  match r.err with
  | some e => ⟨r.calls, some e⟩
  | none =>
      match r.resolved with
      | none => ⟨r.calls, none⟩
      | some sid => ⟨r.calls ++ [RCall.mk "one.secgroup.delete" [toString sid]], none⟩

/-- Calls issued after the first call bearing the given method name. -/
def callsAfter (t : List RCall) (method : String) : List RCall :=
  (t.dropWhile (fun c => c.method ≠ method)).drop 1

/-- Claim C5: Image poll classification — lifecycle code 1 is ready, code 5
a terminal error, a failed info read is the non-error "notfound"
classification (which can therefore serve as the delete-wait's target), and
any other code is pending. -/
theorem C5_image_classification (iid : Nat) :
    (∀ v : ImageView, v.state = 1 →
        imageRefresh iid (InfoResp.okView v) = ⟨some v, "ready", none⟩)
    ∧ (∀ v : ImageView, v.state = 5 →
        (imageRefresh iid (InfoResp.okView v)).cls = "error"
        ∧ (imageRefresh iid (InfoResp.okView v)).err ≠ none)
    ∧ (imageRefresh iid InfoResp.errCall).cls = "notfound"
    ∧ (imageRefresh iid InfoResp.errCall).err = none
    ∧ (∀ v : ImageView, v.state ≠ 1 → v.state ≠ 5 →
        imageRefresh iid (InfoResp.okView v) = ⟨some v, "anythingelse", none⟩)
    ∧ (∀ rest, runWait (imageRefresh iid) "notfound"
        (RCall.mk "one.image.info" [toString iid]) (InfoResp.errCall :: rest)
        = ([RCall.mk "one.image.info" [toString iid]], Except.ok (some ⟨0, 0⟩))) := by
  refine ⟨?_, ?_, rfl, rfl, ?_, ?_⟩
  · intro v h
    simp [imageRefresh, h]
  · intro v h
    constructor <;> simp [imageRefresh, h]
  · intro v h1 h5
    simp [imageRefresh, h1, h5]
  · intro rest
    simp [runWait, imageRefresh]

/-- Witness for C5 at image ID 3: state 1 ready, state 5 error, state 4
pending, and a delete-wait that meets a failing info read succeeds at once
on the "notfound" target. -/
theorem C5_image_classification_witness :
    imageRefresh 3 (InfoResp.okView ⟨3, 1⟩) = ⟨some ⟨3, 1⟩, "ready", none⟩
    ∧ ((imageRefresh 3 (InfoResp.okView ⟨3, 5⟩)).cls = "error"
        ∧ (imageRefresh 3 (InfoResp.okView ⟨3, 5⟩)).err ≠ none)
    ∧ imageRefresh 3 (InfoResp.okView ⟨3, 4⟩) = ⟨some ⟨3, 4⟩, "anythingelse", none⟩
    ∧ runWait (imageRefresh 3) "notfound" (RCall.mk "one.image.info" [toString 3])
        [InfoResp.errCall]
        = ([RCall.mk "one.image.info" [toString 3]], Except.ok (some ⟨0, 0⟩)) :=
  ⟨(C5_image_classification 3).1 ⟨3, 1⟩ rfl,
   (C5_image_classification 3).2.1 ⟨3, 5⟩ rfl,
   (C5_image_classification 3).2.2.2.2.1 ⟨3, 4⟩ (by decide) (by decide),
   (C5_image_classification 3).2.2.2.2.2 [InfoResp.errCall]⟩

/-- Counterexample to C4 as stated: at coarse state 3, LCM state 36, with
the free-form ERROR context key present but bound to the empty string, the
code produces the generic diagnostic, not the key's (empty) value — the Go
map read cannot distinguish a present-but-empty key from an absent one. -/
theorem C4_error_key_counterexample :
    ((List.find? (fun e => e.1 = "ERROR") [("ERROR", "")]).isSome = true)
    ∧ (vmRefresh 3 (InfoResp.okView ⟨3, 36, [("ERROR", "")]⟩)).err =
        some "VM ID 3 entered fail state, error message: No error was found"
    ∧ (vmRefresh 3 (InfoResp.okView ⟨3, 36, [("ERROR", "")]⟩)).err ≠
        some "VM ID 3 entered fail state, error message: " := by
  refine ⟨by decide, by decide, by decide⟩

/-- Claim C4 amended: VM poll classification — coarse 3 with LCM 3 is the
running target; coarse 6 is done; coarse 3 with LCM 36 is the terminal
boot-failure classification whose diagnostic embeds the value of the
free-form ERROR context key when that value is non-empty and the generic
"No error was found" message otherwise; any other pair is pending; and a
failed info read is a hard error rather than a pending retry. -/
theorem C4_vm_classification (vid : Nat) :
    (∀ v : VmView, v.state = 3 → v.lcmState = 3 →
        vmRefresh vid (InfoResp.okView v) = ⟨some v, "running", none⟩)
    ∧ (∀ v : VmView, v.state = 6 →
        vmRefresh vid (InfoResp.okView v) = ⟨some v, "done", none⟩)
    ∧ (∀ v : VmView, v.state = 3 → v.lcmState = 36 →
        vmRefresh vid (InfoResp.okView v) = ⟨some v, "boot_failure",
          some ("VM ID " ++ toString vid ++ " entered fail state, error message: "
            ++ (if mapGet v.userTemplate "ERROR" ≠ "" then mapGet v.userTemplate "ERROR"
                else "No error was found"))⟩)
    ∧ (∀ v : VmView, ¬(v.state = 3 ∧ v.lcmState = 3) → v.state ≠ 6 →
        ¬(v.state = 3 ∧ v.lcmState = 36) →
        vmRefresh vid (InfoResp.okView v) = ⟨some v, "anythingelse", none⟩)
    ∧ (vmRefresh vid InfoResp.errCall).err =
        some ("Could not find VM by ID " ++ toString vid) := by
  refine ⟨?_, ?_, ?_, ?_, rfl⟩
  · intro v h3 hl
    simp [vmRefresh, h3, hl]
  · intro v h6
    simp [vmRefresh, h6]
  · intro v h3 hl
    simp [vmRefresh, h3, hl, vmErrMsg]
  · intro v hA hB hC
    simp [vmRefresh, hA, hB, hC]

/-- Witness for C4 at VM ID 9: running, done, boot failure with the "boom"
diagnostic, pending, and the hard read failure. -/
theorem C4_vm_classification_witness :
    vmRefresh 9 (InfoResp.okView ⟨3, 3, []⟩) = ⟨some ⟨3, 3, []⟩, "running", none⟩
    ∧ vmRefresh 9 (InfoResp.okView ⟨6, 0, []⟩) = ⟨some ⟨6, 0, []⟩, "done", none⟩
    ∧ vmRefresh 9 (InfoResp.okView ⟨3, 36, [("ERROR", "boom")]⟩) =
        ⟨some ⟨3, 36, [("ERROR", "boom")]⟩, "boot_failure",
         some ("VM ID " ++ toString 9 ++ " entered fail state, error message: "
           ++ (if mapGet [("ERROR", "boom")] "ERROR" ≠ "" then
                 mapGet [("ERROR", "boom")] "ERROR"
               else "No error was found"))⟩
    ∧ vmRefresh 9 (InfoResp.okView ⟨3, 1, []⟩) = ⟨some ⟨3, 1, []⟩, "anythingelse", none⟩
    ∧ (vmRefresh 9 InfoResp.errCall).err = some ("Could not find VM by ID " ++ toString 9) :=
  ⟨(C4_vm_classification 9).1 ⟨3, 3, []⟩ rfl rfl,
   (C4_vm_classification 9).2.1 ⟨6, 0, []⟩ rfl,
   (C4_vm_classification 9).2.2.1 ⟨3, 36, [("ERROR", "boom")]⟩ rfl rfl,
   (C4_vm_classification 9).2.2.2.1 ⟨3, 1, []⟩ (by decide) (by decide) (by decide),
   (C4_vm_classification 9).2.2.2.2⟩

lemma runWait_calls_all {α : Type} (refresh : InfoResp α → RefreshOut α) (target : String)
    (ic : RCall) : ∀ polls : List (InfoResp α),
      ((runWait refresh target ic polls).1).all (fun c => c = ic) = true
  | [] => by simp [runWait]
  | r :: rest => by
      have ih := runWait_calls_all refresh target ic rest
      cases herr : (refresh r).err with
      | some e => simp [runWait, herr]
      | none =>
          by_cases ht : (refresh r).cls = target
          · simp [runWait, herr, ht]
          · simp [runWait, herr, ht, ih]

lemma runWait_ok_nonempty {α : Type} (refresh : InfoResp α → RefreshOut α) (target : String)
    (ic : RCall) (polls : List (InfoResp α)) (s : Option α)
    (h : (runWait refresh target ic polls).2 = Except.ok s) :
    (runWait refresh target ic polls).1 ≠ [] := by
  cases polls with
  | nil => simp [runWait] at h
  | cons r rest =>
      cases herr : (refresh r).err with
      | some e => simp [runWait, herr]
      | none =>
          by_cases ht : (refresh r).cls = target
          · simp [runWait, herr, ht]
          · simp [runWait, herr, ht]

lemma leaseLoop_methods (method : String) (vid : Nat) :
    ∀ (n : Nat) (s : IPv4),
      (leaseLoop method vid s n).all (fun c => c.method = method) = true
  | 0, _ => by simp [leaseLoop]
  | n + 1, s => by
      simp [leaseLoop, leaseCall, leaseLoop_methods method vid n s.incLast]

lemma vnetReleasePart_methods (cfg : VnetConfig) (vid : Nat) :
    (vnetReleasePart cfg vid).calls.all (fun c => c.method = "one.vn.release") = true := by
  unfold vnetReleasePart leaseWalkGo
  by_cases h : cfg.hold_size.getD 0 > 0
  · cases hs : cfg.ip_start with
    | some s => simp [h, leaseLoop_methods]
    | none =>
        by_cases hc : cfg.reservation_size.getD 0 = 0
        · simp [h, hc]
        · simp [h, hc]
  · simp [h]

lemma callsAfter_concat (t : List RCall) (c : RCall)
    (h : ∀ x ∈ t, x.method ≠ c.method) :
    callsAfter (t ++ [c]) c.method = [] := by
  induction t with
  | nil => simp [callsAfter, List.dropWhile_cons]
  | cons a t ih =>
      have ha : a.method ≠ c.method := h a (List.mem_cons_self a t)
      have := ih (fun x hx => h x (List.mem_cons_of_mem a hx))
      simpa [callsAfter, List.dropWhile_cons, ha] using this

/-- Counterexample to C2 as stated: the VirtualNetwork delete at a concrete
fresh-allocation input returns success with the `one.vn.delete` call as its
final remote call — no polling of any kind follows the remote delete. -/
theorem C2_delete_poll_counterexample :
    (vnetDelete c1cfg (some 7) ⟨true, none⟩).err = none
    ∧ RCall.mk "one.vn.delete" ["7", "false"] ∈ (vnetDelete c1cfg (some 7) ⟨true, none⟩).calls
    ∧ callsAfter (vnetDelete c1cfg (some 7) ⟨true, none⟩).calls "one.vn.delete" = [] := by
  refine ⟨by decide, by decide, by decide⟩

/-- Claim C2 amended: every delete path first re-reads and returns success
without a remote delete call when nothing resolves; the Image driver then
deletes and polls `one.image.info` until the "notfound" classification; the
VirtualMachine driver issues `terminate-hard` and polls `one.vm.info` until
the "done" classification; the VirtualNetwork and SecurityGroup drivers
issue their delete call last and return success without polling. -/
theorem C2_delete_paths (nm : String) (env : ReadEnv) (iid vmid vnid sid : Nat)
    (cfg : VnetConfig)
    (hio : env.infoOk = true)
    (hwalk : (vnetReleasePart cfg vnid).err = none)
    (ipolls : List (InfoResp ImageView)) (vpolls : List (InfoResp VmView))
    (isnap : Option ImageView) (vsnap : Option VmView)
    (hiw : (runWait (imageRefresh iid) "notfound"
        (RCall.mk "one.image.info" [toString iid]) ipolls).2 = Except.ok isnap)
    (hvw : (runWait (vmRefresh vmid) "done"
        (RCall.mk "one.vm.info" [toString vmid]) vpolls).2 = Except.ok vsnap) :
    (imageDelete (some iid) nm env ipolls).err = none
    ∧ (imageDelete (some iid) nm env ipolls).calls =
        RCall.mk "one.image.info" [toString iid, "false"] ::
          RCall.mk "one.image.delete" [toString iid, "false"] ::
          (runWait (imageRefresh iid) "notfound"
            (RCall.mk "one.image.info" [toString iid]) ipolls).1
    ∧ (runWait (imageRefresh iid) "notfound"
        (RCall.mk "one.image.info" [toString iid]) ipolls).1 ≠ []
    ∧ ((runWait (imageRefresh iid) "notfound"
        (RCall.mk "one.image.info" [toString iid]) ipolls).1).all
          (fun c => c = RCall.mk "one.image.info" [toString iid]) = true
    ∧ (vmDelete (some vmid) nm env vpolls).err = none
    ∧ (vmDelete (some vmid) nm env vpolls).calls =
        RCall.mk "one.vm.info" [toString vmid] ::
          RCall.mk "one.vm.action" ["terminate-hard", toString vmid] ::
          (runWait (vmRefresh vmid) "done"
            (RCall.mk "one.vm.info" [toString vmid]) vpolls).1
    ∧ (runWait (vmRefresh vmid) "done"
        (RCall.mk "one.vm.info" [toString vmid]) vpolls).1 ≠ []
    ∧ ((runWait (vmRefresh vmid) "done"
        (RCall.mk "one.vm.info" [toString vmid]) vpolls).1).all
          (fun c => c = RCall.mk "one.vm.info" [toString vmid]) = true
    ∧ (vnetDelete cfg (some vnid) env).err = none
    ∧ (vnetDelete cfg (some vnid) env).calls.getLast? =
        some (RCall.mk "one.vn.delete" [toString vnid, "false"])
    ∧ callsAfter (vnetDelete cfg (some vnid) env).calls "one.vn.delete" = []
    ∧ (secGroupDelete (some sid) nm env).err = none
    ∧ (secGroupDelete (some sid) nm env).calls.getLast? =
        some (RCall.mk "one.secgroup.delete" [toString sid])
    ∧ callsAfter (secGroupDelete (some sid) nm env).calls "one.secgroup.delete" = []
    ∧ (imageDelete (some iid) nm ⟨false, some []⟩ ipolls).err = none
    ∧ ((imageDelete (some iid) nm ⟨false, some []⟩ ipolls).calls).all
        (fun c => c.method ≠ "one.image.delete") = true
    ∧ (vmDelete (some vmid) nm ⟨false, some []⟩ vpolls).err = none
    ∧ ((vmDelete (some vmid) nm ⟨false, some []⟩ vpolls).calls).all
        (fun c => c.method ≠ "one.vm.action") = true
    ∧ (vnetDelete cfg (some vnid) ⟨false, some []⟩).err = none
    ∧ ((vnetDelete cfg (some vnid) ⟨false, some []⟩).calls).all
        (fun c => c.method ≠ "one.vn.delete") = true
    ∧ (secGroupDelete (some sid) nm ⟨false, some []⟩).err = none
    ∧ ((secGroupDelete (some sid) nm ⟨false, some []⟩).calls).all
        (fun c => c.method ≠ "one.secgroup.delete") = true := by
  have hrel := vnetReleasePart_methods cfg vnid
  have hrelne : ∀ x ∈ (vnetReleasePart cfg vnid).calls, x.method ≠ "one.vn.delete" := by
    intro x hx
    have := List.all_eq_true.mp hrel x hx
    simp at this
    simp [this]
  refine ⟨?_, ?_, runWait_ok_nonempty _ _ _ _ _ hiw, runWait_calls_all _ _ _ _,
    ?_, ?_, runWait_ok_nonempty _ _ _ _ _ hvw, runWait_calls_all _ _ _ _,
    ?_, ?_, ?_, ?_, ?_, ?_, ?_, ?_, ?_, ?_, ?_, ?_, ?_, ?_⟩
  · simp [imageDelete, imageRead, readByIdOrName, hio, hiw]
  · simp [imageDelete, imageRead, readByIdOrName, hio, hiw]
  · simp [vmDelete, vmRead, readByIdOrName, hio, hvw]
  · simp [vmDelete, vmRead, readByIdOrName, hio, hvw]
  · simp [vnetDelete, vnetRead, hio, hwalk]
  · simp only [vnetDelete, vnetRead, hio, if_true, hwalk]
    exact List.getLast?_concat _
  · simp only [vnetDelete, vnetRead, hio, if_true, hwalk]
    refine callsAfter_concat _ _ ?_
    intro x hx
    rcases List.mem_append.mp hx with h | h
    · simp only [List.mem_singleton] at h
      simp [h]
    · exact hrelne x h
  · simp [secGroupDelete, secGroupRead, readByIdOrName, hio]
  · simp only [secGroupDelete, secGroupRead, readByIdOrName, hio, if_true]
    exact List.getLast?_concat _
  · simp only [secGroupDelete, secGroupRead, readByIdOrName, hio, if_true]
    refine callsAfter_concat _ _ ?_
    intro x hx
    simp only [List.mem_singleton] at hx
    simp [hx]
  · simp [imageDelete, imageRead, readByIdOrName]
  · simp [imageDelete, imageRead, readByIdOrName]
  · simp [vmDelete, vmRead, readByIdOrName]
  · simp [vmDelete, vmRead, readByIdOrName]
  · simp [vnetDelete, vnetRead, vnetReadPool]
  · simp [vnetDelete, vnetRead, vnetReadPool]
  · simp [secGroupDelete, secGroupRead, readByIdOrName]
  · simp [secGroupDelete, secGroupRead, readByIdOrName]

/-- Witness for the amended C2 at concrete inputs: image 1 (its delete-wait
meets a failing info read and succeeds), VM 2 (its wait meets coarse state
6), vnet 7 at `c1cfg`, security group 3. -/
theorem C2_delete_paths_witness :
    (imageDelete (some 1) "x" ⟨true, some []⟩ [InfoResp.errCall]).err = none
    ∧ (vmDelete (some 2) "x" ⟨true, some []⟩ [InfoResp.okView ⟨6, 0, []⟩]).err = none
    ∧ (vnetDelete c1cfg (some 7) ⟨true, some []⟩).err = none
    ∧ (vnetDelete c1cfg (some 7) ⟨true, some []⟩).calls.getLast? =
        some (RCall.mk "one.vn.delete" [toString 7, "false"])
    ∧ (secGroupDelete (some 3) "x" ⟨true, some []⟩).err = none := by
  have h := C2_delete_paths "x" ⟨true, some []⟩ 1 2 7 3 c1cfg rfl rfl
    [InfoResp.errCall] [InfoResp.okView ⟨6, 0, []⟩] (some ⟨0, 0⟩) (some ⟨6, 0, []⟩)
    rfl rfl
  exact ⟨h.1, h.2.2.2.2.1, h.2.2.2.2.2.2.2.2.1, h.2.2.2.2.2.2.2.2.2.1,
    h.2.2.2.2.2.2.2.2.2.2.2.1⟩

end OpenNebula
